import Mathlib

/-!
Verification of the QuickIt script-runner core (`src/extension.ts`).

The TypeScript source is shallowly embedded: pure functions become Lean
functions over `String`/`List Char`; the stateful pieces (custom-interpreter
registry, one-shot warning flags, the run supervisor's settle logic) become
explicit state-passing step functions folded over event lists.  Host
collaborators (filesystem stat, PATH lookup, the settings store, task
completion events) are passed in as explicit oracles/parameters, mirroring
how the source merely calls them.  `process.platform === 'win32'` is
threaded as an explicit `win32 : Bool` parameter.
-/

namespace QuickIt

/-- The single-quote character (codepoint 39), written via `Char.ofNat`. -/
def squote : Char := Char.ofNat 39

/-- The double-quote character (codepoint 34), written via `Char.ofNat`. -/
def dquote : Char := Char.ofNat 34

/-- JavaScript whitespace (`\s`, and the class stripped by
`String.prototype.trim`) for the code points the extension can meet:
ASCII whitespace plus NBSP and BOM. -/
def jsWhitespace (c : Char) : Bool :=
  c.toNat = 32 || c.toNat = 9 || c.toNat = 10 || c.toNat = 11 || c.toNat = 12 ||
    c.toNat = 13 || c.toNat = 160 || c.toNat = 65279

/-- JavaScript `String.prototype.trim`: strip leading and trailing
whitespace. -/
def jsTrim (s : String) : String :=
  String.mk (((s.data.dropWhile jsWhitespace).reverse.dropWhile jsWhitespace).reverse)

/-- JavaScript `String.prototype.toLowerCase` on one character, for the
ASCII range the extension handles. -/
def jsCharToLower (c : Char) : Char :=
  if 65 ≤ c.toNat && c.toNat ≤ 90 then Char.ofNat (c.toNat + 32) else c

/-- JavaScript `String.prototype.toLowerCase` (ASCII range). -/
def jsToLower (s : String) : String :=
  String.mk (s.data.map jsCharToLower)

/-! ### quoteForCommandArgument (extension.ts:698-704)

`value.replace(/"/g, '""')` is a global single-character replacement, i.e.
a per-character flat-map; likewise `value.replace(/'/g, "'\\''")` maps each
single quote to the four characters `'`, `\`, `'`, `'`. -/

/-- Per-character effect of `value.replace(/"/g, '""')`. -/
def escapeWinQuotes (cs : List Char) : List Char :=
  cs.flatMap fun c => if c = dquote then [dquote, dquote] else [c]

/-- Per-character effect of `value.replace(/'/g, "'\\''")`. -/
def escapePosixQuotes (cs : List Char) : List Char :=
  cs.flatMap fun c => if c = squote then [squote, '\\', squote, squote] else [c]

/-- `quoteForCommandArgument` (extension.ts:698-704), with
`process.platform === 'win32'` as the explicit parameter `win32`. -/
def quoteForCommandArgument (win32 : Bool) (value : String) : String :=
  if win32 then
    String.mk (dquote :: (escapeWinQuotes value.data ++ [dquote]))
  else
    String.mk (squote :: (escapePosixQuotes value.data ++ [squote]))

/-! ### Script descriptors (extension.ts:9-16, 27-80) -/

/-- `ScriptDescriptor` (extension.ts:9-16).  `buildRunCommand` takes the
platform flag first, since the source's command builders read
`process.platform` through `quoteForCommandArgument`. -/
structure ScriptDescriptor where
  extension : String
  label : String
  languageId : Option String := none
  interpreterSetting : Option String := none
  getDefaultInterpreters : List String
  buildRunCommand : Bool → String → String → String

/-- `BUILTIN_SCRIPT_DESCRIPTORS` (extension.ts:27-76). -/
def BUILTIN_SCRIPT_DESCRIPTORS : List ScriptDescriptor :=
  [ { extension := ".ps1"
      label := "PowerShell (.ps1)"
      languageId := some "powershell"
      interpreterSetting := some "interpreters.powershell"
      getDefaultInterpreters := ["pwsh", "powershell"]
      buildRunCommand := fun win32 interpreter scriptPath =>
        interpreter ++ " -NoProfile -ExecutionPolicy Bypass -File " ++
          quoteForCommandArgument win32 scriptPath }
  , { extension := ".sh"
      label := "Bash (.sh)"
      languageId := some "shellscript"
      interpreterSetting := some "interpreters.bash"
      getDefaultInterpreters := ["bash"]
      buildRunCommand := fun win32 interpreter scriptPath =>
        interpreter ++ " " ++ quoteForCommandArgument win32 scriptPath }
  , { extension := ".zsh"
      label := "Zsh (.zsh)"
      languageId := some "shellscript"
      interpreterSetting := some "interpreters.bash"
      getDefaultInterpreters := ["bash"]
      buildRunCommand := fun win32 interpreter scriptPath =>
        interpreter ++ " " ++ quoteForCommandArgument win32 scriptPath }
  , { extension := ".py"
      label := "Python (.py)"
      languageId := some "python"
      interpreterSetting := some "interpreters.python"
      getDefaultInterpreters := ["python"]
      buildRunCommand := fun win32 interpreter scriptPath =>
        interpreter ++ " " ++ quoteForCommandArgument win32 scriptPath }
  , { extension := ".js"
      label := "JavaScript (.js)"
      languageId := some "javascript"
      interpreterSetting := some "interpreters.node"
      getDefaultInterpreters := ["node"]
      buildRunCommand := fun win32 interpreter scriptPath =>
        interpreter ++ " " ++ quoteForCommandArgument win32 scriptPath }
  , { extension := ".ts"
      label := "TypeScript (.ts)"
      languageId := some "typescript"
      interpreterSetting := some "interpreters.tsNode"
      getDefaultInterpreters := ["ts-node"]
      buildRunCommand := fun win32 interpreter scriptPath =>
        interpreter ++ " " ++ quoteForCommandArgument win32 scriptPath }
  ]

/-- `BUILTIN_BY_EXTENSION` (extension.ts:78-80), as an association list. -/
def BUILTIN_BY_EXTENSION : List (String × ScriptDescriptor) :=
  BUILTIN_SCRIPT_DESCRIPTORS.map fun descriptor => (descriptor.extension, descriptor)

/-- `BUILTIN_BY_EXTENSION.get(extension)` (Map lookup). -/
def builtinLookup (extension : String) : Option ScriptDescriptor :=
  (BUILTIN_BY_EXTENSION.find? fun entry => entry.1 = extension).map (·.2)

/-- `BUILTIN_BY_EXTENSION.has(extension)` (extension.ts:457). -/
def builtinHas (extension : String) : Bool :=
  (builtinLookup extension).isSome

/-- `normalizeExtension` (extension.ts:545-552).  `startsWith('.')` is the
head-character test. -/
def normalizeExtension (extension : String) : String :=
  let normalizedValue := jsToLower (jsTrim extension)
  if normalizedValue = "" then ""
  else if normalizedValue.data.head? = some '.' then normalizedValue
  else "." ++ normalizedValue

/-! ### Custom-interpreter registry and registration API (extension.ts:186, 445-474)

The `Map<string, CustomInterpreter>` is modelled as an association list with
Map semantics observable through `regLookup`: `regSet` overwrites any entry
with the same key, `regDelete` removes it.  `scriptsTreeProvider.refresh()`
calls are counted in `refreshCount`. -/

/-- `CustomInterpreter` (extension.ts:18-21). -/
structure CustomInterpreter where
  command : String
  label : Option String := none
deriving DecidableEq

/-- `Map.get` on the registry. -/
def regLookup (entries : List (String × CustomInterpreter)) (key : String) :
    Option CustomInterpreter :=
  (entries.find? fun entry => entry.1 = key).map (·.2)

/-- `Map.delete` on the registry. -/
def regDelete (entries : List (String × CustomInterpreter)) (key : String) :
    List (String × CustomInterpreter) :=
  entries.filter fun entry => ¬ (entry.1 = key)

/-- `Map.set` on the registry (observationally: later `get`s see the new
value; any previous entry under the key is replaced). -/
def regSet (entries : List (String × CustomInterpreter)) (key : String)
    (value : CustomInterpreter) : List (String × CustomInterpreter) :=
  (key, value) :: regDelete entries key

/-- Mutable state owned by `activate`: the custom-interpreter map plus a
count of `scriptsTreeProvider.refresh()` notifications. -/
structure RegState where
  entries : List (String × CustomInterpreter)
  refreshCount : Nat
deriving DecidableEq

/-- `api.registerInterpreter` (extension.ts:446-462).  Returns the updated
state, and either the thrown error message or the data captured by the
returned disposal closure (the normalized extension and trimmed command). -/
def registerInterpreter (s : RegState) (extension command : String)
    (label : Option String) : RegState × Except String (String × String) :=
  let normalizedExtension := normalizeExtension extension
  if normalizedExtension = "" then
    (s, .error "Extension must be provided.")
  else
    let normalizedCommand := jsTrim command
    if normalizedCommand = "" then
      (s, .error "Interpreter command must be provided.")
    else if builtinHas normalizedExtension then
      (s, .error (String.mk [dquote] ++ normalizedExtension ++ String.mk [dquote] ++
        " is already handled by a built-in QuickIt interpreter."))
    else
      ({ entries := regSet s.entries normalizedExtension
           { command := normalizedCommand, label := label }
         refreshCount := s.refreshCount + 1 },
       .ok (normalizedExtension, normalizedCommand))

/-- The disposal closure returned by `registerInterpreter`
(extension.ts:464-472).  `handle` carries the captured
(normalizedExtension, normalizedCommand) pair. -/
def disposeHandle (s : RegState) (handle : String × String) : RegState :=
  match regLookup s.entries handle.1 with
  | none => s
  | some currentValue =>
    if currentValue.command = handle.2 then
      { entries := regDelete s.entries handle.1
        refreshCount := s.refreshCount + 1 }
    else s

/-! ### Run supervisor: executeQuickItTask (extension.ts:757-794)

The promise executor is modelled as a state machine over the signals the
host may deliver: `onDidEndTaskProcess` events, `onDidEndTask` events, and
rejection of the `executeTask` launch promise.  Disposing a subscription is
counted (`procDisposals`, `taskDisposals`) so "disposed exactly once" is
provable; events are still delivered to the model after disposal, which the
`settled` guard makes harmless exactly as in the source. -/

/-- The task definition carried back by a completion event, as the source
reads it: `{ type?: unknown; runId?: unknown }`.  A missing or non-string
field is `none` (it can never strict-.eq the tag strings). -/
structure TaskDef where
  type : Option String
  runId : Option String
deriving DecidableEq

/-- How a settled run ends: `resolve(exitCode)` / `resolve(undefined)` /
`reject(error)`. -/
inductive SupOutcome where
  | resolved (exitCode : Option Int)
  | rejected (message : String)
deriving DecidableEq

/-- One signal observable by the promise executor. -/
inductive SupEvent where
  | procEnd (d : TaskDef) (exitCode : Option Int)
  | taskEnd (d : TaskDef)
  | launchRejected (message : String)
deriving DecidableEq

/-- Supervisor state: the `settled` flag, the number of times each
subscription's `dispose()` ran, and the promise's settlement. -/
structure SupState where
  settled : Bool
  procDisposals : Nat
  taskDisposals : Nat
  outcome : Option SupOutcome
deriving DecidableEq

/-- State before any signal: promise pending, subscriptions live. -/
def supInit : SupState :=
  { settled := false, procDisposals := 0, taskDisposals := 0, outcome := none }

/-- The filter both handlers apply (extension.ts:773, 782):
`definition?.type !== 'quick-it' || definition.runId !== runId` skips. -/
def defMatches (runId : String) (d : TaskDef) : Bool :=
  d.type = some "quick-it" && d.runId = some runId

/-- `settle` (extension.ts:760-769): a no-op once `settled`; otherwise sets
the flag, disposes both subscriptions, and runs the settlement callback. -/
def settle (s : SupState) (o : SupOutcome) : SupState :=
  if s.settled then s
  else
    { settled := true
      procDisposals := s.procDisposals + 1
      taskDisposals := s.taskDisposals + 1
      outcome := some o }

/-- Delivery of one signal to the executor (extension.ts:771-792). -/
def supStep (runId : String) (s : SupState) (e : SupEvent) : SupState :=
  match e with
  | .procEnd d exitCode =>
    if defMatches runId d then settle s (.resolved exitCode) else s
  | .taskEnd d =>
    if defMatches runId d then settle s (.resolved none) else s
  | .launchRejected message => settle s (.rejected message)

/-- The whole run: every signal the host delivers, in order. -/
def supRun (runId : String) (events : List SupEvent) : SupState :=
  events.foldl (supStep runId) supInit

/-- Whether a signal settles a pending run for `runId`. -/
def eventSettles (runId : String) : SupEvent → Bool
  | .procEnd d _ => defMatches runId d
  | .taskEnd d => defMatches runId d
  | .launchRejected _ => true

/-- The settlement a signal produces when it is the first to win. -/
def eventOutcome : SupEvent → SupOutcome
  | .procEnd _ exitCode => .resolved exitCode
  | .taskEnd _ => .resolved none
  | .launchRejected message => .rejected message

/-! ### Settings scoping: getQuickItConfigurationValue (extension.ts:706-724)

`WorkspaceConfiguration.inspect` is modelled as an optional record of the
per-scope values; `configuration.get` is the host's merged effective value
(workspace-folder over workspace over user over default), which is where a
workspace value could leak through the `??` chain. -/

/-- The record returned by `configuration.inspect<string>(settingPath)`. -/
structure InspectResult where
  globalValue : Option String
  workspaceValue : Option String
  workspaceFolderValue : Option String
  defaultValue : Option String
deriving DecidableEq

/-- The settings store for one key: `inspect` returns `none` only for a key
unknown to the host. -/
structure KeyConfiguration where
  inspected : Option InspectResult
deriving DecidableEq

/-- `configuration.get<string>(settingPath)`: the host's effective merged
value, per the documented scope precedence. -/
def effectiveGet (cfg : KeyConfiguration) : Option String :=
  match cfg.inspected with
  | none => none
  | some i =>
    (i.workspaceFolderValue.orElse fun _ =>
      (i.workspaceValue.orElse fun _ =>
        (i.globalValue.orElse fun _ => i.defaultValue)))

/-- `normalizeOptionalString` (extension.ts:721-724). -/
def normalizeOptionalString (value : Option String) : Option String :=
  match value with
  | none => none
  | some v => let trimmed := jsTrim v; if trimmed = "" then none else some trimmed

/-- `getQuickItConfigurationValue` (extension.ts:706-719): the resolved
value and the `hasWorkspaceOverride` flag. -/
def getQuickItConfigurationValue (cfg : KeyConfiguration) :
    Option String × Bool :=
  match cfg.inspected with
  | none => (normalizeOptionalString (effectiveGet cfg), false)
  | some i =>
    (normalizeOptionalString
      ((i.globalValue.orElse fun _ =>
        (i.defaultValue.orElse fun _ => effectiveGet cfg))),
     i.workspaceValue.isSome || i.workspaceFolderValue.isSome)

/-- Modelled from the spec: the repository's `package.json` configuration
contributions are not under `src/`; §6 of the spec (and the settings table
in the README) says every quickIt key is a registered string setting with a
built-in default, so `inspect` returns a record whose `defaultValue` is
present. -/
def RegisteredQuickItKey (cfg : KeyConfiguration) : Prop :=
  ∃ i, cfg.inspected = some i ∧ i.defaultValue.isSome

/-- One call to `getQuickItSettingValue` (extension.ts:189-199):
given the warn-once flag, returns the new flag, whether the workspace
warning was shown by this call, and the value handed to the caller. -/
def settingReadStep (flag : Bool) (cfg : KeyConfiguration) :
    Bool × Bool × Option String :=
  let r := getQuickItConfigurationValue cfg
  if r.2 && !flag then (true, true, r.1) else (flag, false, r.1)

/-- Fold a sequence of `getQuickItSettingValue` calls, counting how many
showed the workspace-override warning. -/
def settingReadsCount (flag : Bool) : List KeyConfiguration → Nat
  | [] => 0
  | cfg :: rest =>
    let step := settingReadStep flag cfg
    (if step.2.1 then 1 else 0) + settingReadsCount step.1 rest

/-! ### Interpreter resolution and the run command (extension.ts:316-346, 478-493)

`isCommandAvailable` performs real probes (stat / which); it enters the
model as an oracle `avail : String → Bool`.  The settings store enters as
`cfg : String → KeyConfiguration`, and `getQuickItSettingValue`'s value (its
warning side effect is modelled above) is
`(getQuickItConfigurationValue (cfg key)).1`. -/

/-- `resolveInterpreterCommand` (extension.ts:478-493). -/
def resolveInterpreterCommand (cfg : String → KeyConfiguration)
    (avail : String → Bool) (descriptor : ScriptDescriptor) : Option String :=
  match descriptor.interpreterSetting with
  | some settingKey =>
    match (getQuickItConfigurationValue (cfg settingKey)).1 with
    | some configuredValue => some configuredValue
    | none => descriptor.getDefaultInterpreters.find? avail
  | none => descriptor.getDefaultInterpreters.find? avail

/-- A user-visible notification, by severity. -/
inductive Notice where
  | infoMsg (text : String)
  | warningMsg (text : String)
  | errorMsg (text : String)
deriving DecidableEq

/-- A tree item handed to the run command: `name` models
`path.basename(item.uri.fsPath)`. -/
structure ScriptItem where
  name : String
  fsPath : String
  descriptor : ScriptDescriptor

/-- What the `quick-it.runScript` handler did: the notifications it showed,
in order, and the command line it launched (if it reached `executeTask`). -/
structure RunScriptResult where
  notices : List Notice
  launched : Option String
deriving DecidableEq

/-- The `quick-it.runScript` handler (extension.ts:309-347) after the
launch decision, parameterized by the settled result of
`executeQuickItTask` (`.error` models the promise rejecting into the
`catch`; `.ok` carries the exit code, `none` when it was `undefined`). -/
def runScriptCommand (win32 : Bool) (cfg : String → KeyConfiguration)
    (avail : String → Bool) (item : Option ScriptItem)
    (execResult : Except String (Option Int)) : RunScriptResult :=
  match item with
  | none => { notices := [.errorMsg "No QuickIt script selected."], launched := none }
  | some it =>
    match resolveInterpreterCommand cfg avail it.descriptor with
    | none =>
      { notices := [.errorMsg ("No interpreter found for " ++ it.descriptor.label ++
          ". Configure one in QuickIt settings.")]
        launched := none }
    | some interpreterCommand =>
      if !avail interpreterCommand then
        { notices := [.errorMsg ("Interpreter " ++ String.mk [dquote] ++
            interpreterCommand ++ String.mk [dquote] ++ " was not found on PATH.")]
          launched := none }
      else
        let scriptName := it.name
        let commandLine := it.descriptor.buildRunCommand win32 interpreterCommand it.fsPath
        let executing : Notice := .infoMsg ("QuickIt: Executing " ++ String.mk [dquote] ++
          scriptName ++ String.mk [dquote] ++ "...")
        match execResult with
        | .error message =>
          { notices := [executing,
              .errorMsg ("QuickIt failed to run the selected script: " ++ message)]
            launched := some commandLine }
        | .ok exitCode =>
          if exitCode = none ∨ exitCode = some 0 then
            { notices := [executing, .infoMsg ("QuickIt: Finished " ++ String.mk [dquote] ++
                scriptName ++ String.mk [dquote] ++ ".")]
              launched := some commandLine }
          else
            match exitCode with
            | none =>
              { notices := [executing, .infoMsg ("QuickIt: Finished " ++ String.mk [dquote] ++
                  scriptName ++ String.mk [dquote] ++ ".")]
                launched := some commandLine }
            | some code =>
              { notices := [executing, .warningMsg ("QuickIt: Finished " ++ String.mk [dquote] ++
                  scriptName ++ String.mk [dquote] ++ " (exit code " ++ toString code ++ ").")]
                launched := some commandLine }

/-! ### Script-name validation (extension.ts:82-105, 565-603)

`path.extname` / `path.parse(..).name` are used only after names containing
`/` or `\` were rejected, so they are embedded for separator-free inputs,
following Node's algorithm: the extension starts at the rightmost dot,
except that it is empty when there is no dot, when the rightmost dot is the
first character (hidden files like `.bashrc`), or when the name is exactly
`..`. -/

/-- `WINDOWS_RESERVED_BASENAMES` (extension.ts:82-105). -/
def WINDOWS_RESERVED_BASENAMES : List String :=
  ["con", "prn", "aux", "nul",
   "com1", "com2", "com3", "com4", "com5", "com6", "com7", "com8", "com9",
   "lpt1", "lpt2", "lpt3", "lpt4", "lpt5", "lpt6", "lpt7", "lpt8", "lpt9"]

/-- Index of the last dot of a character list, if any. -/
def lastDotIdx : List Char → Option Nat
  | [] => none
  | c :: rest =>
    match lastDotIdx rest with
    | some i => some (i + 1)
    | none => if c = '.' then some 0 else none

/-- Node `path.extname`, restricted to separator-free basenames. -/
def extname (name : String) : String :=
  let cs := name.data
  match lastDotIdx cs with
  | none => ""
  | some i =>
    if i = 0 ∨ cs = ['.', '.'] then "" else String.mk (cs.drop i)

/-- Node `path.parse(name).name`, restricted to separator-free basenames:
the name minus its `extname` suffix. -/
def parsedName (name : String) : String :=
  String.mk (name.data.take (name.data.length - (extname name).data.length))

/-- One character of the class `[<>:"|?*\x00-\x1F]` (extension.ts:579). -/
def isInvalidNameChar (c : Char) : Bool :=
  c = '<' || c = '>' || c = ':' || c = dquote || c = '|' || c = '?' || c = '*' ||
    c.toNat ≤ 31

/-- `validateScriptNameInput` (extension.ts:565-603): `some message` is the
rejection, `none` means the name is accepted. -/
def validateScriptNameInput (value : String) (extension : String) : Option String :=
  let trimmedValue := jsTrim value
  if trimmedValue = "" then some "Script name is required."
  else if trimmedValue = "." || trimmedValue = ".." then
    some "Enter a valid script name."
  else if trimmedValue.data.any (fun c => c = '\\' || c = '/') then
    some "Use only a file name, not a path."
  else if trimmedValue.data.any isInvalidNameChar then
    some "Name contains invalid filename characters."
  else if (match trimmedValue.data.getLast? with
           | some c => c = '.' || c = ' '
           | none => false) then
    some "Name cannot end with a period or space."
  else
    let expectedExtension := normalizeExtension extension
    if jsToLower trimmedValue = expectedExtension then
      some ("Enter a file name before " ++ expectedExtension ++ ".")
    else
      let fileNameBase := jsToLower (parsedName trimmedValue)
      if WINDOWS_RESERVED_BASENAMES.contains fileNameBase then
        some "Name is reserved on Windows."
      else
        let providedExtension := normalizeExtension (extname trimmedValue)
        if providedExtension ≠ "" && providedExtension ≠ expectedExtension then
          some ("Use " ++ expectedExtension ++ " or leave the extension blank.")
        else none

/-! ### ScriptsTreeProvider.getChildren (extension.ts:128-183)

A root-level `getChildren` call is a function of the provider's
`hasShownReadError` flag and of what the directory read produced: either a
listing (entry name and file type) or a thrown error.  The sort models
`localeCompare(..., \x7b sensitivity: 'base' \x7d)` as case-insensitive
name order. -/

/-- `vscode.FileType` of a directory entry. -/
inductive EntryFileType where
  | file
  | directory
  | symbolicLink
  | unknown
deriving DecidableEq

/-- A listed script, as the provider exposes it. -/
structure ListedScript where
  name : String
  descriptorExtension : String
deriving DecidableEq

/-- Insertion into a list kept sorted by case-insensitive name. -/
def insertByName (item : ListedScript) : List ListedScript → List ListedScript
  | [] => [item]
  | other :: rest =>
    if jsToLower item.name ≤ jsToLower other.name then item :: other :: rest
    else other :: insertByName item rest

/-- Sort by case-insensitive name (models the `localeCompare` sort). -/
def sortByName (items : List ListedScript) : List ListedScript :=
  items.foldr insertByName []

/-- One root-level `getChildren` call (extension.ts:146-182): from the
`hasShownReadError` flag and the read outcome, the new flag, the error
message shown by this call (if any), and the returned items. -/
def getChildrenStep (resolveDescriptor : String → Option ScriptDescriptor)
    (hasShownReadError : Bool)
    (read : Except String (List (String × EntryFileType))) :
    Bool × Option String × List ListedScript :=
  match read with
  | .ok entries =>
    let scriptItems := entries.filterMap fun entry =>
      if entry.2 = EntryFileType.file then
        (resolveDescriptor entry.1).map fun d =>
          { name := entry.1, descriptorExtension := d.extension }
      else none
    (false, none, sortByName scriptItems)
  | .error message =>
    if !hasShownReadError then
      (true, some ("QuickIt failed to load scripts: " ++ message), [])
    else (true, none, [])

/-- A sequence of root-level `getChildren` calls on one provider: final
flag and how many times the read-failure message was shown. -/
def getChildrenRun (resolveDescriptor : String → Option ScriptDescriptor)
    (flag : Bool) : List (Except String (List (String × EntryFileType))) → Bool × Nat
  | [] => (flag, 0)
  | read :: rest =>
    let step := getChildrenStep resolveDescriptor flag read
    let tail := getChildrenRun resolveDescriptor step.1 rest
    (tail.1, (if step.2.1.isSome then 1 else 0) + tail.2)

/-! ### Command-token extraction and availability (extension.ts:657-696) -/

/-- First index satisfying a predicate (the index arithmetic behind
`String.search` and `String.indexOf`). -/
def firstIdxWhere (p : Char → Bool) : List Char → Option Nat
  | [] => none
  | c :: rest => if p c then some 0 else (firstIdxWhere p rest).map (· + 1)

/-- `trimmed.indexOf(quote, 1)` (extension.ts:688), `none` for `-1`. -/
def indexOfCharFrom (cs : List Char) (q : Char) (start : Nat) : Option Nat :=
  match firstIdxWhere (fun c => c = q) (cs.drop start) with
  | some j => some (start + j)
  | none => none

/-- The whitespace-split fallback (extension.ts:694-695):
`trimmed.search(/\s/)` then `slice(0, separatorIndex)`. -/
def fallbackToken (trimmed : List Char) : List Char :=
  match firstIdxWhere jsWhitespace trimmed with
  | none => trimmed
  | some separatorIdx => trimmed.take separatorIdx

/-- `extractCommandToken` (extension.ts:680-696). -/
def extractCommandToken (command : String) : String :=
  let trimmed := (jsTrim command).data
  match trimmed with
  | [] => ""
  | c :: _ =>
    if c = dquote || c = squote then
      match indexOfCharFrom trimmed c 1 with
      | some closingIdx =>
        if closingIdx > 1 then String.mk ((trimmed.drop 1).take (closingIdx - 1))
        else String.mk (fallbackToken trimmed)
      | none => String.mk (fallbackToken trimmed)
    else String.mk (fallbackToken trimmed)

/-- `isCommandAvailable` (extension.ts:657-678).  The filesystem stat, the
PATH-lookup utility and `path.isAbsolute` are oracles: the function only
decides which probe receives which token. -/
def isCommandAvailable (isAbsolutePath statSucceeds whichSucceeds : String → Bool)
    (command : String) : Bool :=
  let executable := extractCommandToken command
  if executable = "" then false
  else if isAbsolutePath executable then statSucceeds executable
  else whichSucceeds executable

/-! ### Spec-side companions used by the theorems below -/

/-- Inverse of the win32 quoting body: collapse each doubled double quote
back to one.  `collapseWinQuotes (escapeWinQuotes cs) = cs` certifies that
the escaping doubles exactly the embedded double quotes. -/
def collapseWinQuotes : List Char → List Char
  | [] => []
  | [c] => [c]
  | c1 :: c2 :: rest =>
    if c1 = dquote && c2 = dquote then dquote :: collapseWinQuotes rest
    else c1 :: collapseWinQuotes (c2 :: rest)

/-- Inverse of the POSIX quoting body: collapse each close-escape-reopen
sequence (quote, backslash, quote, quote) back to a single quote. -/
def collapsePosixQuotes : List Char → List Char
  | c1 :: c2 :: c3 :: c4 :: rest =>
    if c1 = squote && c2 = '\\' && c3 = squote && c4 = squote then
      squote :: collapsePosixQuotes rest
    else c1 :: collapsePosixQuotes (c2 :: c3 :: c4 :: rest)
  | c :: rest => c :: collapsePosixQuotes rest
  | [] => []

/-- Whether a directory read threw. -/
def readFails (read : Except String (List (String × EntryFileType))) : Bool :=
  match read with
  | .error _ => true
  | .ok _ => false

/-- Number of failure episodes in a read sequence: failing reads not
immediately preceded by another failing read (`prevFailed` carries whether
the preceding read failed). -/
def failureEpisodes (prevFailed : Bool) :
    List (Except String (List (String × EntryFileType))) → Nat
  | [] => 0
  | read :: rest =>
    (if readFails read && !prevFailed then 1 else 0) +
      failureEpisodes (readFails read) rest

/-! ## Theorems -/

theorem supStep_of_settled (runId : String) (s : SupState) (e : SupEvent)
    (h : s.settled = true) : supStep runId s e = s := by
  cases e <;> simp [supStep, settle, h]

theorem supFold_of_settled (runId : String) (events : List SupEvent) (s : SupState)
    (h : s.settled = true) : events.foldl (supStep runId) s = s := by
  induction events with
  | nil => rfl
  | cons e rest ih => simp [List.foldl_cons, supStep_of_settled runId s e h, ih]

theorem supStep_settles (runId : String) (p t : Nat) (e : SupEvent)
    (h : eventSettles runId e = true) :
    supStep runId ⟨false, p, t, none⟩ e =
      ⟨true, p + 1, t + 1, some (eventOutcome e)⟩ := by
  cases e <;> simp_all [supStep, settle, eventSettles, eventOutcome]

theorem supStep_skips (runId : String) (s : SupState) (e : SupEvent)
    (h : eventSettles runId e = false) : supStep runId s e = s := by
  cases e <;> simp_all [supStep, settle, eventSettles]

theorem supFold_unsettled (runId : String) (events : List SupEvent) (p t : Nat) :
    events.foldl (supStep runId) ⟨false, p, t, none⟩ =
      (match events.find? (eventSettles runId) with
       | some e => ⟨true, p + 1, t + 1, some (eventOutcome e)⟩
       | none => (⟨false, p, t, none⟩ : SupState)) := by
  induction events with
  | nil => rfl
  | cons e rest ih =>
    by_cases h : eventSettles runId e = true
    · rw [List.foldl_cons, supStep_settles runId p t e h,
        supFold_of_settled runId rest _ rfl, List.find?_cons_of_pos _ h]
    · rw [List.foldl_cons, supStep_skips runId _ e (by simpa using h), ih,
        List.find?_cons_of_neg _ (by simpa using h)]

/-- Claim C1: for every run, `executeQuickItTask` settles its outcome at
most once — over any sequence of delivered signals, the promise's
settlement is exactly the one induced by the first signal that either
carries a matching quick-it task definition (process-end resolving with
its exit code, generic end-of-task resolving with no code) or is the
rejection of the launch request (rejecting with that failure); every later
or duplicate signal is ignored, and each of the two event subscriptions is
disposed exactly once when settlement happens (zero times if no signal
ever settles it). -/
theorem executeQuickItTask_settles_once_C1 (runId : String) (events : List SupEvent) :
    (supRun runId events).outcome =
      (events.find? (eventSettles runId)).map eventOutcome ∧
    (supRun runId events).settled = (events.find? (eventSettles runId)).isSome ∧
    (supRun runId events).procDisposals =
      (if (events.find? (eventSettles runId)).isSome then 1 else 0) ∧
    (supRun runId events).taskDisposals =
      (if (events.find? (eventSettles runId)).isSome then 1 else 0) := by
  have h := supFold_unsettled runId events 0 0
  unfold supRun supInit
  rw [h]
  cases events.find? (eventSettles runId) <;> simp

/-- Claim C2: `resolveInterpreterCommand` follows the specified order.
If the descriptor names a settings key whose user-level value is non-empty
after trimming, that value is returned and the availability oracle is
never consulted (the result is the same for every oracle); otherwise the
default candidates are probed in list order and the first available one is
returned (`List.find?`); and when the result is `none`, the run command
reports "No interpreter found" and never launches. -/
theorem resolveInterpreterCommand_order_C2 (cfg : String → KeyConfiguration)
    (avail : String → Bool) (d : ScriptDescriptor) :
    (∀ settingKey configuredValue, d.interpreterSetting = some settingKey →
      (getQuickItConfigurationValue (cfg settingKey)).1 = some configuredValue →
      resolveInterpreterCommand cfg avail d = some configuredValue ∧
      ∀ otherAvail : String → Bool,
        resolveInterpreterCommand cfg otherAvail d = some configuredValue) ∧
    ((∀ settingKey, d.interpreterSetting = some settingKey →
        (getQuickItConfigurationValue (cfg settingKey)).1 = none) →
      resolveInterpreterCommand cfg avail d = d.getDefaultInterpreters.find? avail) ∧
    (resolveInterpreterCommand cfg avail d = none →
      ∀ (win32 : Bool) (item : ScriptItem)
        (execResult : Except String (Option Int)), item.descriptor = d →
        runScriptCommand win32 cfg avail (some item) execResult =
          { notices := [.errorMsg ("No interpreter found for " ++ d.label ++
              ". Configure one in QuickIt settings.")]
            launched := none }) := by
  refine ⟨?_, ?_, ?_⟩
  · intro settingKey configuredValue hset hval
    constructor
    · simp [resolveInterpreterCommand, hset, hval]
    · intro otherAvail
      simp [resolveInterpreterCommand, hset, hval]
  · intro hnone
    cases hset : d.interpreterSetting with
    | none => simp [resolveInterpreterCommand, hset]
    | some settingKey =>
      simp [resolveInterpreterCommand, hset, hnone settingKey hset]
  · intro hres win32 item execResult hdesc
    subst hdesc
    simp [runScriptCommand, hres]

/-- Concrete instantiation of C2: a configured value (even one needing a
trim) wins over the default candidates under every availability oracle,
and with no configured value and nothing available the run command reports
the missing interpreter without launching. -/
theorem resolveInterpreterCommand_order_C2_witness :
    resolveInterpreterCommand
      (fun _ => ⟨some ⟨some " pwsh7 ", none, none, some ""⟩⟩)
      (fun _ => false)
      { extension := ".ps1", label := "PowerShell (.ps1)"
        interpreterSetting := some "interpreters.powershell"
        getDefaultInterpreters := ["pwsh", "powershell"]
        buildRunCommand := fun _ i _ => i } = some "pwsh7" ∧
    resolveInterpreterCommand
      (fun _ => ⟨some ⟨none, none, none, some ""⟩⟩)
      (fun c => c = "powershell")
      { extension := ".ps1", label := "PowerShell (.ps1)"
        interpreterSetting := some "interpreters.powershell"
        getDefaultInterpreters := ["pwsh", "powershell"]
        buildRunCommand := fun _ i _ => i } = some "powershell" ∧
    runScriptCommand false
      (fun _ => ⟨some ⟨none, none, none, some ""⟩⟩)
      (fun _ => false)
      (some { name := "s.ps1", fsPath := "/tmp/s.ps1"
              descriptor :=
                { extension := ".ps1", label := "PowerShell (.ps1)"
                  interpreterSetting := some "interpreters.powershell"
                  getDefaultInterpreters := ["pwsh", "powershell"]
                  buildRunCommand := fun _ i _ => i } })
      (.ok (some 0)) =
      { notices := [.errorMsg
          "No interpreter found for PowerShell (.ps1). Configure one in QuickIt settings."]
        launched := none } := by
  refine ⟨?_, ?_, ?_⟩
  · exact ((resolveInterpreterCommand_order_C2
      (fun _ => ⟨some ⟨some " pwsh7 ", none, none, some ""⟩⟩) (fun _ => false)
      _).1 "interpreters.powershell" "pwsh7" rfl (by decide)).1
  · have h := (resolveInterpreterCommand_order_C2
      (fun _ => ⟨some ⟨none, none, none, some ""⟩⟩) (fun c => c = "powershell")
      { extension := ".ps1", label := "PowerShell (.ps1)"
        interpreterSetting := some "interpreters.powershell"
        getDefaultInterpreters := ["pwsh", "powershell"]
        buildRunCommand := fun _ i _ => i }).2.1
      (fun settingKey _ => by decide)
    rw [h]
    decide
  · have h := (resolveInterpreterCommand_order_C2
      (fun _ => ⟨some ⟨none, none, none, some ""⟩⟩) (fun _ => false)
      { extension := ".ps1", label := "PowerShell (.ps1)"
        interpreterSetting := some "interpreters.powershell"
        getDefaultInterpreters := ["pwsh", "powershell"]
        buildRunCommand := fun _ i _ => i }).2.2
    exact h (by decide) false _ (.ok (some 0)) rfl

theorem collapseWinQuotes_cons_ne (c : Char) (rest : List Char) (h : ¬ c = dquote) :
    collapseWinQuotes (c :: rest) = c :: collapseWinQuotes rest := by
  cases rest with
  | nil => simp [collapseWinQuotes]
  | cons b t => simp [collapseWinQuotes, h]

theorem collapseWin_escapeWin (cs : List Char) :
    collapseWinQuotes (escapeWinQuotes cs) = cs := by
  induction cs with
  | nil => rfl
  | cons c rest ih =>
    by_cases h : c = dquote
    · subst h
      simp only [escapeWinQuotes, List.flatMap_cons, if_pos rfl]
      simpa [collapseWinQuotes] using ih
    · simp only [escapeWinQuotes, List.flatMap_cons, if_neg h, List.singleton_append]
      rw [collapseWinQuotes_cons_ne c _ h]
      exact congrArg _ ih

theorem collapsePosixQuotes_cons_ne (c : Char) (rest : List Char) (h : ¬ c = squote) :
    collapsePosixQuotes (c :: rest) = c :: collapsePosixQuotes rest := by
  match rest with
  | [] => simp [collapsePosixQuotes]
  | [b] => simp [collapsePosixQuotes]
  | [b, b2] => simp [collapsePosixQuotes]
  | b :: b2 :: b3 :: t => simp [collapsePosixQuotes, h]

theorem collapsePosix_escapePosix (cs : List Char) :
    collapsePosixQuotes (escapePosixQuotes cs) = cs := by
  induction cs with
  | nil => rfl
  | cons c rest ih =>
    by_cases h : c = squote
    · subst h
      simp only [escapePosixQuotes, List.flatMap_cons, if_pos rfl]
      simpa [collapsePosixQuotes] using ih
    · simp only [escapePosixQuotes, List.flatMap_cons, if_neg h, List.singleton_append]
      rw [collapsePosixQuotes_cons_ne c _ h]
      exact congrArg _ ih

/-- Claim C3: `quoteForCommandArgument` wraps the value in double quotes
with every embedded double quote doubled on win32 (certified by the
collapse inverse recovering the original), wraps it in single quotes with
every embedded single quote replaced by the quote-backslash-quote-quote
sequence elsewhere, and the built-in `.ps1` descriptor's `buildRunCommand`
inserts the fixed `-NoProfile -ExecutionPolicy Bypass` flags before
`-File` and the quoted script path. -/
theorem quoteForCommandArgument_C3 :
    (∀ value : String,
      quoteForCommandArgument true value =
        String.mk (dquote :: (escapeWinQuotes value.data ++ [dquote])) ∧
      collapseWinQuotes (escapeWinQuotes value.data) = value.data) ∧
    (∀ value : String,
      quoteForCommandArgument false value =
        String.mk (squote :: (escapePosixQuotes value.data ++ [squote])) ∧
      collapsePosixQuotes (escapePosixQuotes value.data) = value.data) ∧
    (builtinLookup ".ps1").elim False
      (fun d => ∀ (win32 : Bool) (interpreter scriptPath : String),
        d.buildRunCommand win32 interpreter scriptPath =
          interpreter ++ " -NoProfile -ExecutionPolicy Bypass -File " ++
            quoteForCommandArgument win32 scriptPath) := by
  refine ⟨?_, ?_, ?_⟩
  · exact fun value => ⟨rfl, collapseWin_escapeWin value.data⟩
  · exact fun value => ⟨rfl, collapsePosix_escapePosix value.data⟩
  · exact fun _ _ _ => rfl

/-- Claim C4: for a run that was actually launched (an interpreter was
resolved and passed the PATH check), the caller-visible outcome is: exit
code 0 or an absent exit code ends in the success notification; a nonzero
exit code ends in a warning notification naming that code; a launch
failure ends in an error notification; and a run settled only by the
generic end-of-task signal resolves with no exit code (hence success). -/
theorem runScript_outcome_C4 (win32 : Bool) (cfg : String → KeyConfiguration)
    (avail : String → Bool) (it : ScriptItem) (interp : String)
    (hres : resolveInterpreterCommand cfg avail it.descriptor = some interp)
    (hav : avail interp = true) :
    (∀ code : Option Int, code = none ∨ code = some 0 →
      (runScriptCommand win32 cfg avail (some it) (.ok code)).notices.getLast? =
        some (.infoMsg ("QuickIt: Finished " ++ String.mk [dquote] ++ it.name ++
          String.mk [dquote] ++ "."))) ∧
    (∀ code : Int, code ≠ 0 →
      (runScriptCommand win32 cfg avail (some it) (.ok (some code))).notices.getLast? =
        some (.warningMsg ("QuickIt: Finished " ++ String.mk [dquote] ++ it.name ++
          String.mk [dquote] ++ " (exit code " ++ toString code ++ ")."))) ∧
    (∀ message : String,
      (runScriptCommand win32 cfg avail (some it) (.error message)).notices.getLast? =
        some (.errorMsg ("QuickIt failed to run the selected script: " ++ message))) ∧
    (∀ (runId : String) (d : TaskDef), defMatches runId d = true →
      (supRun runId [SupEvent.taskEnd d]).outcome = some (.resolved none)) := by
  refine ⟨?_, ?_, ?_, ?_⟩
  · rintro code (rfl | rfl) <;> simp [runScriptCommand, hres, hav]
  · intro code hcode
    simp [runScriptCommand, hres, hav, hcode]
  · intro message
    simp [runScriptCommand, hres, hav]
  · intro runId d h
    simp [supRun, supInit, supStep, h, settle, List.foldl]

/-- Concrete instantiation of C4 over a launched `.sh` run: exit code 0
and the absent exit code give the success notification, exit code 3 gives
the warning naming 3, a launch failure gives the error notification, and a
matching generic end-of-task signal resolves with no exit code. -/
theorem runScript_outcome_C4_witness :
    (runScriptCommand false (fun _ => ⟨none⟩) (fun _ => true)
        (some { name := "s.sh", fsPath := "/tmp/s.sh"
                descriptor :=
                  { extension := ".sh", label := "Bash (.sh)"
                    interpreterSetting := some "interpreters.bash"
                    getDefaultInterpreters := ["bash"]
                    buildRunCommand := fun _ i p => i ++ " " ++ p } })
        (.ok none)).notices.getLast? =
      some (.infoMsg ("QuickIt: Finished " ++ String.mk [dquote] ++ "s.sh" ++
        String.mk [dquote] ++ ".")) ∧
    (runScriptCommand false (fun _ => ⟨none⟩) (fun _ => true)
        (some { name := "s.sh", fsPath := "/tmp/s.sh"
                descriptor :=
                  { extension := ".sh", label := "Bash (.sh)"
                    interpreterSetting := some "interpreters.bash"
                    getDefaultInterpreters := ["bash"]
                    buildRunCommand := fun _ i p => i ++ " " ++ p } })
        (.ok (some 3))).notices.getLast? =
      some (.warningMsg ("QuickIt: Finished " ++ String.mk [dquote] ++ "s.sh" ++
        String.mk [dquote] ++ " (exit code " ++ toString (3 : Int) ++ ").")) ∧
    (runScriptCommand false (fun _ => ⟨none⟩) (fun _ => true)
        (some { name := "s.sh", fsPath := "/tmp/s.sh"
                descriptor :=
                  { extension := ".sh", label := "Bash (.sh)"
                    interpreterSetting := some "interpreters.bash"
                    getDefaultInterpreters := ["bash"]
                    buildRunCommand := fun _ i p => i ++ " " ++ p } })
        (.error "spawn failed")).notices.getLast? =
      some (.errorMsg "QuickIt failed to run the selected script: spawn failed") ∧
    (supRun "r1" [SupEvent.taskEnd ⟨some "quick-it", some "r1"⟩]).outcome =
      some (.resolved none) := by
  have h := runScript_outcome_C4 false (fun _ => ⟨none⟩) (fun _ => true)
    { name := "s.sh", fsPath := "/tmp/s.sh"
      descriptor :=
        { extension := ".sh", label := "Bash (.sh)"
          interpreterSetting := some "interpreters.bash"
          getDefaultInterpreters := ["bash"]
          buildRunCommand := fun _ i p => i ++ " " ++ p } }
    "bash" (by decide) rfl
  exact ⟨h.1 none (Or.inl rfl), h.2.1 3 (by decide), h.2.2.1 "spawn failed",
    h.2.2.2 "r1" ⟨some "quick-it", some "r1"⟩ (by decide)⟩

theorem getQuickItConfigurationValue_registered (i : InspectResult) (d : String)
    (hd : i.defaultValue = some d) :
    (getQuickItConfigurationValue ⟨some i⟩).1 =
      normalizeOptionalString (i.globalValue.orElse fun _ => some d) := by
  cases hg : i.globalValue <;>
    simp [getQuickItConfigurationValue, hg, hd, Option.orElse]

theorem settingReadsCount_flagged (reads : List KeyConfiguration) :
    settingReadsCount true reads = 0 := by
  induction reads with
  | nil => rfl
  | cons cfg rest ih => simp [settingReadsCount, settingReadStep, ih]

theorem settingReadsCount_once (reads : List KeyConfiguration) :
    settingReadsCount false reads =
      (if reads.any (fun cfg => (getQuickItConfigurationValue cfg).2) then 1 else 0) := by
  induction reads with
  | nil => rfl
  | cons cfg rest ih =>
    by_cases h : (getQuickItConfigurationValue cfg).2 = true
    · simp [settingReadsCount, settingReadStep, h, settingReadsCount_flagged]
    · simp only [Bool.not_eq_true] at h
      simp [settingReadsCount, settingReadStep, h, ih]

/-- Claim C5: for every registered quickIt key (modelled from the spec:
every key carries a built-in default), the resolved value depends only on
the user-level (global) value and the default — two inspect results
agreeing on those two scopes but differing in workspace or
workspace-folder values resolve identically — and over any sequence of
setting reads starting with a clear flag, the workspace-override warning
is shown exactly once when some read sees an override and never
otherwise. -/
theorem settings_scoping_C5 :
    (∀ i1 i2 : InspectResult,
      RegisteredQuickItKey ⟨some i1⟩ →
      i1.globalValue = i2.globalValue →
      i1.defaultValue = i2.defaultValue →
      (getQuickItConfigurationValue ⟨some i1⟩).1 =
        (getQuickItConfigurationValue ⟨some i2⟩).1) ∧
    (∀ reads : List KeyConfiguration,
      settingReadsCount false reads =
        (if reads.any (fun cfg => (getQuickItConfigurationValue cfg).2)
         then 1 else 0)) := by
  constructor
  · rintro i1 i2 ⟨i, hi, hd⟩ hg hdef
    have hii : i1 = i := by injection hi
    subst hii
    obtain ⟨d, hdval⟩ := Option.isSome_iff_exists.mp hd
    rw [getQuickItConfigurationValue_registered i1 d hdval,
      getQuickItConfigurationValue_registered i2 d (hdef ▸ hdval), hg]
  · exact settingReadsCount_once

/-- Concrete instantiation of C5: a workspace override (`"evil"`) does not
change the resolved value of a registered key, and a read sequence whose
first two reads see the override warns exactly once. -/
theorem settings_scoping_C5_witness :
    (getQuickItConfigurationValue ⟨some ⟨some " pwsh ", some "evil", none, some ""⟩⟩).1 =
      (getQuickItConfigurationValue ⟨some ⟨some " pwsh ", none, none, some ""⟩⟩).1 ∧
    settingReadsCount false
      [⟨some ⟨some " pwsh ", some "evil", none, some ""⟩⟩,
       ⟨some ⟨some " pwsh ", some "evil", none, some ""⟩⟩,
       ⟨some ⟨some " pwsh ", none, none, some ""⟩⟩] = 1 := by
  constructor
  · exact settings_scoping_C5.1
      ⟨some " pwsh ", some "evil", none, some ""⟩
      ⟨some " pwsh ", none, none, some ""⟩
      ⟨⟨some " pwsh ", some "evil", none, some ""⟩, rfl, rfl⟩ rfl rfl
  · exact (settings_scoping_C5.2 _).trans (by decide)

/-- Claim C6: `registerInterpreter` fails exactly when the normalized
extension is empty, the command is empty after trimming, or the normalized
extension is a built-in extension; on failure the registry is unchanged
and no refresh is fired; on success the entry is stored under the
normalized extension (with the trimmed command) and one view refresh is
triggered. -/
theorem registerInterpreter_C6 (s : RegState) (extension command : String)
    (label : Option String) :
    ((∃ e, (registerInterpreter s extension command label).2 = .error e) ↔
      (normalizeExtension extension = "" ∨ jsTrim command = "" ∨
        builtinHas (normalizeExtension extension) = true)) ∧
    (∀ e, (registerInterpreter s extension command label).2 = .error e →
      (registerInterpreter s extension command label).1 = s) ∧
    (∀ ne nc, (registerInterpreter s extension command label).2 = .ok (ne, nc) →
      ne = normalizeExtension extension ∧ nc = jsTrim command ∧
      regLookup (registerInterpreter s extension command label).1.entries ne =
        some ⟨nc, label⟩ ∧
      (registerInterpreter s extension command label).1.refreshCount =
        s.refreshCount + 1) := by
  by_cases h1 : normalizeExtension extension = ""
  · simp [registerInterpreter, h1]
  · by_cases h2 : jsTrim command = ""
    · simp [registerInterpreter, h1, h2]
    · by_cases h3 : builtinHas (normalizeExtension extension) = true
      · simp [registerInterpreter, h1, h2, h3]
      · simp only [Bool.not_eq_true] at h3
        refine ⟨?_, ?_, ?_⟩
        · simp [registerInterpreter, h1, h2, h3]
        · simp [registerInterpreter, h1, h2, h3]
        · intro ne nc hok
          simp only [registerInterpreter, h1, h2, h3, Bool.false_eq_true,
            if_false, Except.ok.injEq, Prod.mk.injEq] at hok
          obtain ⟨hne, hnc⟩ := hok
          subst hne; subst hnc
          refine ⟨rfl, rfl, ?_, ?_⟩
          · simp [registerInterpreter, h1, h2, h3, regLookup, regSet, List.find?]
          · simp [registerInterpreter, h1, h2, h3]

/-- Concrete instantiation of C6: registering for the built-in `.py` fails;
a blank extension leaves the registry untouched; registering `" .LUA "`
with command `" lua "` stores the entry under `".lua"` with command
`"lua"` and fires one refresh. -/
theorem registerInterpreter_C6_witness :
    (∃ e, (registerInterpreter ⟨[], 0⟩ ".py" "python3" none).2 = .error e) ∧
    (registerInterpreter ⟨[], 0⟩ "  " "lua" none).1 = ⟨[], 0⟩ ∧
    (".lua" = normalizeExtension " .LUA " ∧ "lua" = jsTrim " lua " ∧
      regLookup (registerInterpreter ⟨[], 0⟩ " .LUA " " lua "
        (some "Lua")).1.entries ".lua" = some ⟨"lua", some "Lua"⟩ ∧
      (registerInterpreter ⟨[], 0⟩ " .LUA " " lua "
        (some "Lua")).1.refreshCount = 0 + 1) := by
  refine ⟨?_, ?_, ?_⟩
  · exact (registerInterpreter_C6 ⟨[], 0⟩ ".py" "python3" none).1.mpr
      (Or.inr (Or.inr (by decide)))
  · exact (registerInterpreter_C6 ⟨[], 0⟩ "  " "lua" none).2.1
      "Extension must be provided." rfl
  · exact (registerInterpreter_C6 ⟨[], 0⟩ " .LUA " " lua " (some "Lua")).2.2
      ".lua" "lua" rfl

theorem regLookup_regDelete (entries : List (String × CustomInterpreter))
    (key : String) : regLookup (regDelete entries key) key = none := by
  induction entries with
  | nil => rfl
  | cons e rest ih =>
    by_cases h : e.1 = key <;>
      · simp only [regDelete, regLookup, List.filter_cons, List.find?, h] at ih ⊢
        simp [h, ih]

/-- Claim C7: disposing a registration handle removes the entry exactly
when the stored entry's command equals the command captured by the handle
(and then fires one refresh and the entry is gone); when the entry is
absent or stores a different command, disposal leaves the whole state
(including the refresh count) unchanged, so the newer entry survives; and
disposing the same handle twice equals disposing it once. -/
theorem disposeHandle_C7 (s : RegState) (handle : String × String) :
    (∀ c, regLookup s.entries handle.1 = some c → c.command = handle.2 →
      disposeHandle s handle =
        ⟨regDelete s.entries handle.1, s.refreshCount + 1⟩ ∧
      regLookup (disposeHandle s handle).entries handle.1 = none) ∧
    (regLookup s.entries handle.1 = none → disposeHandle s handle = s) ∧
    (∀ c, regLookup s.entries handle.1 = some c → ¬ c.command = handle.2 →
      disposeHandle s handle = s) ∧
    disposeHandle (disposeHandle s handle) handle = disposeHandle s handle := by
  refine ⟨?_, ?_, ?_, ?_⟩
  · intro c hc hcmd
    refine ⟨by simp [disposeHandle, hc, hcmd], ?_⟩
    simp [disposeHandle, hc, hcmd, regLookup_regDelete]
  · intro h
    simp [disposeHandle, h]
  · intro c hc hcmd
    simp [disposeHandle, hc, hcmd]
  · cases hc : regLookup s.entries handle.1 with
    | none => simp [disposeHandle, hc]
    | some c =>
      by_cases hcmd : c.command = handle.2
      · have h1 : disposeHandle s handle =
            ⟨regDelete s.entries handle.1, s.refreshCount + 1⟩ := by
          simp [disposeHandle, hc, hcmd]
        rw [h1]
        simp [disposeHandle, regLookup_regDelete]
      · simp [disposeHandle, hc, hcmd]

/-- Concrete instantiation of C7: disposing the handle for `.lua` removes
the matching entry and bumps the refresh count; disposing against an empty
registry or against a re-registered different command (`"luajit"`) changes
nothing. -/
theorem disposeHandle_C7_witness :
    disposeHandle ⟨[(".lua", ⟨"lua", none⟩)], 5⟩ (".lua", "lua") =
      ⟨regDelete [(".lua", ⟨"lua", none⟩)] ".lua", 5 + 1⟩ ∧
    regLookup (disposeHandle ⟨[(".lua", ⟨"lua", none⟩)], 5⟩
      (".lua", "lua")).entries ".lua" = none ∧
    disposeHandle ⟨[], 0⟩ (".lua", "lua") = ⟨[], 0⟩ ∧
    disposeHandle ⟨[(".lua", ⟨"luajit", none⟩)], 5⟩ (".lua", "lua") =
      ⟨[(".lua", ⟨"luajit", none⟩)], 5⟩ := by
  refine ⟨?_, ?_, ?_, ?_⟩
  · exact ((disposeHandle_C7 ⟨[(".lua", ⟨"lua", none⟩)], 5⟩ (".lua", "lua")).1
      ⟨"lua", none⟩ rfl rfl).1
  · exact ((disposeHandle_C7 ⟨[(".lua", ⟨"lua", none⟩)], 5⟩ (".lua", "lua")).1
      ⟨"lua", none⟩ rfl rfl).2
  · exact (disposeHandle_C7 ⟨[], 0⟩ (".lua", "lua")).2.1 rfl
  · exact (disposeHandle_C7 ⟨[(".lua", ⟨"luajit", none⟩)], 5⟩ (".lua", "lua")).2.2.1
      ⟨"luajit", none⟩ rfl (by decide)

/-- Claim C8 counterexample: the claim says names ending in a space are
rejected, but `validateScriptNameInput` trims the input before any check,
so the name consisting of `a` followed by a space is accepted. -/
theorem validateScriptNameInput_C8_counterexample :
    validateScriptNameInput "a " ".ps1" = none := by decide

/-- Claim C8 (amended): `validateScriptNameInput` validates the trimmed
form of the input — so a name ending in a space is validated as its
trimmed form rather than rejected — and rejects: the empty (trimmed)
name, `.`, `..`, names containing `/` or `\`, names containing the
reserved characters or control characters, trimmed names ending in a
period, a bare extension equal to the expected one, names whose basename
is Windows-reserved (case-insensitively), and names carrying a different
extension than expected; it accepts `my-script` and `my-script.ps1`
against `.ps1`. -/
theorem validateScriptNameInput_C8_amended (value extension : String) :
    (jsTrim value = "" →
      (validateScriptNameInput value extension).isSome = true) ∧
    (jsTrim value = "." ∨ jsTrim value = ".." →
      (validateScriptNameInput value extension).isSome = true) ∧
    ((jsTrim value).data.any (fun c => c = '\\' || c = '/') = true →
      (validateScriptNameInput value extension).isSome = true) ∧
    ((jsTrim value).data.any isInvalidNameChar = true →
      (validateScriptNameInput value extension).isSome = true) ∧
    ((jsTrim value).data.getLast? = some '.' →
      (validateScriptNameInput value extension).isSome = true) ∧
    (jsToLower (jsTrim value) = normalizeExtension extension →
      (validateScriptNameInput value extension).isSome = true) ∧
    (WINDOWS_RESERVED_BASENAMES.contains
        (jsToLower (parsedName (jsTrim value))) = true →
      (validateScriptNameInput value extension).isSome = true) ∧
    (¬ normalizeExtension (extname (jsTrim value)) = "" →
      ¬ normalizeExtension (extname (jsTrim value)) = normalizeExtension extension →
      (validateScriptNameInput value extension).isSome = true) ∧
    validateScriptNameInput "my-script" ".ps1" = none ∧
    validateScriptNameInput "my-script.ps1" ".ps1" = none := by
  refine ⟨?_, ?_, ?_, ?_, ?_, ?_, ?_, ?_, by decide, by decide⟩
  · intro h
    simp only [validateScriptNameInput]
    repeat' split
    all_goals simp_all
  · intro h
    simp only [validateScriptNameInput]
    repeat' split
    all_goals simp_all
  · intro h
    simp only [validateScriptNameInput]
    repeat' split
    all_goals simp_all
  · intro h
    simp only [validateScriptNameInput]
    repeat' split
    all_goals simp_all
  · intro h
    simp only [validateScriptNameInput]
    repeat' split
    all_goals simp_all
  · intro h
    simp only [validateScriptNameInput]
    repeat' split
    all_goals simp_all
  · intro h
    simp only [validateScriptNameInput]
    repeat' split
    all_goals simp_all
  · intro h1 h2
    simp only [validateScriptNameInput]
    repeat' split
    all_goals simp_all

/-- Concrete instantiations of amended C8: each rejection class fires on a
sample input and the two acceptance examples pass. -/
theorem validateScriptNameInput_C8_amended_witness :
    (validateScriptNameInput "  " ".ps1").isSome = true ∧
    (validateScriptNameInput " .. " ".ps1").isSome = true ∧
    (validateScriptNameInput "path/to/script" ".ps1").isSome = true ∧
    (validateScriptNameInput "a?b" ".ps1").isSome = true ∧
    (validateScriptNameInput "name." ".ps1").isSome = true ∧
    (validateScriptNameInput ".PS1" ".ps1").isSome = true ∧
    (validateScriptNameInput "CON.ps1" ".ps1").isSome = true ∧
    (validateScriptNameInput "script.sh" ".ps1").isSome = true ∧
    validateScriptNameInput "my-script" ".ps1" = none ∧
    validateScriptNameInput "my-script.ps1" ".ps1" = none := by
  refine ⟨(validateScriptNameInput_C8_amended "  " ".ps1").1 (by decide),
    (validateScriptNameInput_C8_amended " .. " ".ps1").2.1 (Or.inr (by decide)),
    (validateScriptNameInput_C8_amended "path/to/script" ".ps1").2.2.1 (by decide),
    (validateScriptNameInput_C8_amended "a?b" ".ps1").2.2.2.1 (by decide),
    (validateScriptNameInput_C8_amended "name." ".ps1").2.2.2.2.1 (by decide),
    (validateScriptNameInput_C8_amended ".PS1" ".ps1").2.2.2.2.2.1 (by decide),
    (validateScriptNameInput_C8_amended "CON.ps1" ".ps1").2.2.2.2.2.2.1 (by decide),
    (validateScriptNameInput_C8_amended "script.sh" ".ps1").2.2.2.2.2.2.2.1
      (by decide) (by decide),
    (validateScriptNameInput_C8_amended "x" ".ps1").2.2.2.2.2.2.2.2.1,
    (validateScriptNameInput_C8_amended "x" ".ps1").2.2.2.2.2.2.2.2.2⟩

/-- Claim C9 counterexample: the claim says that once the read-failure
message has been shown, later failing calls never show it again for the
provider's lifetime; but a successful read resets the flag
(extension.ts:172), so the sequence fail, success, fail shows the
message twice. -/
theorem getChildren_C9_counterexample :
    (getChildrenRun (fun _ => none) false
      [.error "EACCES", .ok [], .error "EACCES"]).2 = 2 := by decide

theorem failureEpisodes_allFail (reads : List (Except String (List (String × EntryFileType))))
    (h : ∀ r ∈ reads, readFails r = true) : failureEpisodes true reads = 0 := by
  induction reads with
  | nil => rfl
  | cons r rest ih =>
    simp [failureEpisodes, h r (by simp),
      ih fun x hx => h x (by simp [hx])]

theorem getChildrenRun_count (resolveDescriptor : String → Option ScriptDescriptor)
    (reads : List (Except String (List (String × EntryFileType)))) : ∀ flag : Bool,
    (getChildrenRun resolveDescriptor flag reads).2 = failureEpisodes flag reads := by
  induction reads with
  | nil => intro flag; rfl
  | cons r rest ih =>
    intro flag
    cases r with
    | ok entries =>
      simp [getChildrenRun, getChildrenStep, failureEpisodes, readFails, ih]
    | error m =>
      cases flag <;>
        simp [getChildrenRun, getChildrenStep, failureEpisodes, readFails, ih]

/-- Claim C9 (amended): across any sequence of `getChildren` calls, the
scripts-directory read-failure message is shown exactly once per failure
episode — consecutive failing calls after a shown message stay silent, but
a successful read resets the one-shot flag, so the message can be shown
again after a success-failure transition; in particular an unbroken run of
failing refreshes produces exactly one notification. -/
theorem getChildren_C9_amended (resolveDescriptor : String → Option ScriptDescriptor)
    (reads : List (Except String (List (String × EntryFileType)))) :
    (∀ flag : Bool,
      (getChildrenRun resolveDescriptor flag reads).2 = failureEpisodes flag reads) ∧
    ((∀ r ∈ reads, readFails r = true) → ¬ reads = [] →
      (getChildrenRun resolveDescriptor false reads).2 = 1) := by
  refine ⟨getChildrenRun_count resolveDescriptor reads, ?_⟩
  intro hall hne
  rw [getChildrenRun_count resolveDescriptor reads false]
  cases reads with
  | nil => exact absurd rfl hne
  | cons r rest =>
    simp [failureEpisodes, hall r (by simp),
      failureEpisodes_allFail rest fun x hx => hall x (by simp [hx])]

/-- Concrete instantiations of amended C9: two consecutive failures warn
once; fail-success-fail matches the failure-episode count (two). -/
theorem getChildren_C9_amended_witness :
    (getChildrenRun (fun _ => none) false [.error "a", .error "b"]).2 = 1 ∧
    (getChildrenRun (fun _ => none) false [.error "a", .ok [], .error "b"]).2 =
      failureEpisodes false [.error "a", .ok [], .error "b"] := by
  exact ⟨(getChildren_C9_amended (fun _ => none) [.error "a", .error "b"]).2
      (by decide) (by simp),
    (getChildren_C9_amended (fun _ => none) [.error "a", .ok [], .error "b"]).1 false⟩

theorem fallbackToken_head (q : Char) (rest : List Char)
    (hw : jsWhitespace q = false) :
    (fallbackToken (q :: rest)).head? = some q := by
  simp only [fallbackToken, firstIdxWhere, hw, Bool.false_eq_true, if_false]
  cases hfi : firstIdxWhere jsWhitespace rest with
  | none => simp [hfi]
  | some j => simp [hfi, List.take_succ_cons]

/-- Claim C10: when the trimmed command starts with a quote character that
is unmatched or immediately closed (closing index 1), `extractCommandToken`
falls back to the whitespace split and the returned token retains the
leading quote; `isCommandAvailable` then probes that literal token. -/
theorem extractCommandToken_C10 (command : String) (q : Char)
    (hq : (jsTrim command).data.head? = some q)
    (hquote : q = dquote ∨ q = squote)
    (hclose : indexOfCharFrom (jsTrim command).data q 1 = none ∨
      indexOfCharFrom (jsTrim command).data q 1 = some 1) :
    extractCommandToken command = String.mk (fallbackToken (jsTrim command).data) ∧
    (extractCommandToken command).data.head? = some q ∧
    ¬ extractCommandToken command = "" ∧
    (∀ isAbsolutePath statSucceeds whichSucceeds : String → Bool,
      isCommandAvailable isAbsolutePath statSucceeds whichSucceeds command =
        if isAbsolutePath (extractCommandToken command) then
          statSucceeds (extractCommandToken command)
        else whichSucceeds (extractCommandToken command)) := by
  obtain ⟨rest, ht⟩ : ∃ rest, (jsTrim command).data = q :: rest := by
    cases h : (jsTrim command).data with
    | nil => rw [h] at hq; cases hq
    | cons c r =>
      rw [h] at hq
      simp only [List.head?_cons, Option.some.injEq] at hq
      exact ⟨r, by rw [hq]⟩
  have hcond : (q = dquote || q = squote) = true := by
    rcases hquote with h | h <;> simp [h]
  have hmain : extractCommandToken command =
      String.mk (fallbackToken (jsTrim command).data) := by
    simp only [extractCommandToken, ht]
    rcases hclose with hc | hc <;> rw [ht] at hc <;> simp [hcond, hc]
  have hw : jsWhitespace q = false := by
    rcases hquote with h | h <;> subst h <;> decide
  have hhead : (extractCommandToken command).data.head? = some q := by
    rw [hmain, ht]
    exact fallbackToken_head q rest hw
  have hne : ¬ extractCommandToken command = "" := by
    intro he
    rw [he] at hhead
    cases hhead
  refine ⟨hmain, hhead, hne, ?_⟩
  intro isAbsolutePath statSucceeds whichSucceeds
  simp [isCommandAvailable, hne]

/-- Concrete instantiation of C10 at the empty-quoted command consisting
of two double quotes, `foo`, a space, and `bar`: the token falls back to
the whitespace split, keeps its leading double quote, and is what the
PATH probe receives. -/
theorem extractCommandToken_C10_witness :
    extractCommandToken "\"\"foo bar" =
      String.mk (fallbackToken (jsTrim "\"\"foo bar").data) ∧
    (extractCommandToken "\"\"foo bar").data.head? = some dquote ∧
    ¬ extractCommandToken "\"\"foo bar" = "" ∧
    isCommandAvailable (fun _ => false) (fun _ => false)
      (fun token => token = "\"\"foo") "\"\"foo bar" = true := by
  have h := extractCommandToken_C10 "\"\"foo bar" dquote (by decide)
    (Or.inl rfl) (Or.inr (by decide))
  exact ⟨h.1, h.2.1, h.2.2.1,
    (h.2.2.2 (fun _ => false) (fun _ => false) (fun token => token = "\"\"foo")).trans
      (by decide)⟩

end QuickIt
